import Mathlib

/-!
Verification of the diagram canvas geometry and interaction engine of the
ontographia_sd repository (src/components/SDCanvas.js and
src/pages/studio.js), as a shallow embedding in Lean.

Coordinates are modelled with real numbers; JavaScript `Math.sqrt`,
`Math.atan2`, `Math.tan`, `Math.cos`, `Math.sin` become the corresponding
real functions, `x || 1` on a nonnegative length becomes
`if x = 0 then 1 else x`, optional record fields become `Option`, and
`a ?? b` / `a || b` on optional values becomes `Option.getD`.
Style-only fields of connections (lineStyle, strokeWidth, hasDelay) and of
elements (colors, fonts, labels) play no role in any claim below and are
omitted from the records.
-/

/-- Shapes of ELEMENT_TYPES in SDCanvas.js: each element type maps to a
rendering shape. -/
inductive Shape where
  | text
  | rect
  | valve
  | circle
  | cloud
  | loop
deriving DecidableEq

/-- ELEMENT_TYPES lookup with fallback: `ELEMENT_TYPES[el.type] || ELEMENT_TYPES.variable`
returns the shape of the given type string, defaulting to the variable
shape (text) for unknown type strings. -/
def shapeOf (t : String) : Shape :=
  if t = "variable" then Shape.text
  else if t = "stock" then Shape.rect
  else if t = "flow" then Shape.valve
  else if t = "converter" then Shape.circle
  else if t = "cloud" then Shape.cloud
  else if t = "loop_r" then Shape.loop
  else if t = "loop_b" then Shape.loop
  else Shape.text

/-- A diagram node. `width`/`height` are optional overrides
(`el.width`/`el.height` being absent in JS is `none` here). -/
structure Element where
  id : String
  type : String
  x : ℝ
  y : ℝ
  width : Option ℝ
  height : Option ℝ

/-- A diagram edge. `curve` is optional (the renderers read it as
`conn.curve ?? 80`); the anchors are optional strings, absent meaning the
JS `undefined` which the edge point code treats like the string "auto". -/
structure Connection where
  id : String
  source : String
  target : String
  type : String
  curve : Option ℝ
  sourceAnchor : Option String
  targetAnchor : Option String

/-- A diagram: `model.elements` and `model.connections`. -/
structure Model where
  elements : List Element
  connections : List Connection

/-- Dimension defaults used by getEdgePoint and getClosestAnchor
(SDCanvas.js lines 1447-1453): `let width = element.width || 100` and
`height = element.height || 44`, then per-shape overrides that fire only
when `element.width` is absent. -/
noncomputable def dimsEdge (el : Element) : ℝ × ℝ :=
  let w := el.width.getD 100
  let h := el.height.getD 44
  match el.width, shapeOf el.type with
  | none, Shape.text => (80, 24)
  | none, Shape.valve => (40, 34)
  | none, Shape.loop => (44, 44)
  | none, Shape.cloud => (50, 36)
  | none, Shape.circle => (40, 40)
  | _, _ => (w, h)

/-- The export helper getElDims (SDCanvas.js lines 739-748); same defaults
as dimsEdge. -/
noncomputable def getElDims (el : Element) : ℝ × ℝ :=
  let w := el.width.getD 100
  let h := el.height.getD 44
  match el.width, shapeOf el.type with
  | none, Shape.text => (80, 24)
  | none, Shape.loop => (44, 44)
  | none, Shape.cloud => (50, 36)
  | none, Shape.valve => (40, 34)
  | none, Shape.circle => (40, 40)
  | _, _ => (w, h)

/-- Dimension defaults of the export bounding-box loop
(SDCanvas.js lines 711-716). Note this block has no circle case, so a
converter without an explicit width contributes the generic 100 by 44 box. -/
noncomputable def dimsBBox (el : Element) : ℝ × ℝ :=
  let w := el.width.getD 100
  let h := el.height.getD 44
  match el.width, shapeOf el.type with
  | none, Shape.text => (80, 24)
  | none, Shape.loop => (44, 44)
  | none, Shape.cloud => (50, 36)
  | none, Shape.valve => (40, 34)
  | _, _ => (w, h)

/-- screenToCanvas (SDCanvas.js lines 101-108): subtract the container
offset and the pan, then divide by the zoom. -/
noncomputable def screenToCanvas (rectLeft rectTop panX panY zoom screenX screenY : ℝ) : ℝ × ℝ :=
  ((screenX - rectLeft - panX) / zoom, (screenY - rectTop - panY) / zoom)

/-- The forward view transform in client coordinates: the main transform
group is `translate(pan) scale(zoom)` (SDCanvas.js line 1756), composed
with the container offset exactly as the code itself does at lines 357-358
(`rect.left + pan.x + x * zoom`). -/
noncomputable def canvasToScreen (rectLeft rectTop panX panY zoom canvasX canvasY : ℝ) : ℝ × ℝ :=
  (rectLeft + panX + canvasX * zoom, rectTop + panY + canvasY * zoom)

/-- handleWheel with ctrl/meta held (SDCanvas.js lines 443-463): the zoom
factor is 0.9 for `deltaY > 0` and 1.1 otherwise, the new zoom is clamped
to [0.05, 5], and the pan is recomputed from the actual factor so the
point under the mouse stays fixed. Returns (newZoom, newPanX, newPanY). -/
noncomputable def handleWheelZoom (rectLeft rectTop panX panY zoom clientX clientY deltaY : ℝ) :
    ℝ × ℝ × ℝ :=
  let mouseX := clientX - rectLeft
  let mouseY := clientY - rectTop
  let zoomFactor : ℝ := if 0 < deltaY then 0.9 else 1.1
  let newZoom := max 0.05 (min 5 (zoom * zoomFactor))
  let actualFactor := newZoom / zoom
  (newZoom, mouseX - (mouseX - panX) * actualFactor, mouseY - (mouseY - panY) * actualFactor)

/-- The stored connection popup state: source/target ids and anchors
captured when the popup was opened. -/
structure ConnectionPopup where
  sourceId : String
  targetId : String
  sourceAnchor : Option String
  targetAnchor : Option String

/-- handleCreateConnection (SDCanvas.js lines 413-432): build the new
connection from the popup state and the chosen type and append it to
`model.connections`. `now` stands for the `Date.now()` id suffix. -/
def handleCreateConnection (popup : ConnectionPopup) (m : Model) (type : String) (now : String) :
    Model :=
  let newConn : Connection :=
    { id := "conn-" ++ now
      source := popup.sourceId
      target := popup.targetId
      type := type
      curve := some 50
      sourceAnchor := some (popup.sourceAnchor.getD "auto")
      targetAnchor := some (popup.targetAnchor.getD "auto") }
  { m with connections := m.connections ++ [newConn] }

/-- Node deletion (SDCanvas.js handleKeyDown lines 642-649 and studio.js
handleDeleteSelected lines 421-428): drop the node and filter out every
connection whose source or target is the deleted id. -/
def deleteNode (m : Model) (nodeId : String) : Model :=
  { m with
    elements := m.elements.filter (fun el => el.id != nodeId)
    connections := m.connections.filter (fun c => c.source != nodeId && c.target != nodeId) }

/-- A diagram has no dangling edge when every connection endpoint id names
an existing element. -/
def noDangling (m : Model) : Bool :=
  m.connections.all (fun c =>
    m.elements.any (fun el => el.id == c.source) && m.elements.any (fun el => el.id == c.target))

/-- Claim C1 counterexample material: two variable nodes. -/
def elA : Element := { id := "A", type := "variable", x := 0, y := 0, width := none, height := none }

/-- Second node for the C1 scenario. -/
def elB : Element :=
  { id := "B", type := "variable", x := 120, y := 0, width := none, height := none }

/-- The C1 scenario diagram: nodes A and B, no connections yet. -/
def mPopup : Model := { elements := [elA, elB], connections := [] }

/-- The popup stored after dropping A onto B: auto anchors. -/
def popupAB : ConnectionPopup :=
  { sourceId := "A", targetId := "B", sourceAnchor := some "auto", targetAnchor := some "auto" }

/-- Claim C1: committing the connection popup appends exactly one new edge
with the stored source, target and anchors and the chosen type, and
changes nothing else — but the curve written by handleCreateConnection is
50, not the claimed default 80 (the 80 default applies only when a stored
curve is absent). This theorem proves the amended claim. -/
theorem create_connection_appends (popup : ConnectionPopup) (m : Model) (type now : String) :
    (handleCreateConnection popup m type now).elements = m.elements ∧
    (handleCreateConnection popup m type now).connections =
      m.connections ++
        [{ id := "conn-" ++ now
           source := popup.sourceId
           target := popup.targetId
           type := type
           curve := some 50
           sourceAnchor := some (popup.sourceAnchor.getD "auto")
           targetAnchor := some (popup.targetAnchor.getD "auto") }] :=
  ⟨rfl, rfl⟩

/-- Claim C1 counterexample: selecting Negative in the scenario of the
claim produces a single edge whose curve is 50, and 50 is not 80. -/
theorem create_connection_curve_counterexample :
    ((handleCreateConnection popupAB mPopup "negative" "t0").connections.map
        (fun c => c.curve)) = [some 50] ∧
    some (50 : ℝ) ≠ some (80 : ℝ) := by
  refine ⟨rfl, ?_⟩
  simp only [ne_eq, Option.some.injEq]
  norm_num

/-- Claim C2: for every pan, every zoom in [0.05, 5] and every screen
point, the forward transform applied to screenToCanvas returns the screen
point exactly. -/
theorem screen_canvas_roundtrip (rectLeft rectTop panX panY zoom sx sy : ℝ)
    (h1 : 0.05 ≤ zoom) (h2 : zoom ≤ 5) :
    canvasToScreen rectLeft rectTop panX panY zoom
      (screenToCanvas rectLeft rectTop panX panY zoom sx sy).1
      (screenToCanvas rectLeft rectTop panX panY zoom sx sy).2 = (sx, sy) := by
  have hz : zoom ≠ 0 := by norm_num at h1 ⊢; linarith
  simp only [screenToCanvas, canvasToScreen, Prod.mk.injEq]
  constructor <;> field_simp

/-- Claim C2 witness: the round trip at a concrete pan, zoom and screen
point. -/
theorem screen_canvas_roundtrip_witness :
    canvasToScreen 3 4 10 20 2
      (screenToCanvas 3 4 10 20 2 400 300).1
      (screenToCanvas 3 4 10 20 2 400 300).2 = (400, 300) :=
  screen_canvas_roundtrip 3 4 10 20 2 400 300 (by norm_num) (by norm_num)

/-- Claim C7: a ctrl/meta wheel event multiplies the zoom by 0.9 on scroll
down and 1.1 on scroll up, clamps to [0.05, 5], and recomputes the pan so
the canvas point under the pointer is unchanged. -/
theorem wheel_zoom_fixed_point (rectLeft rectTop panX panY zoom clientX clientY deltaY : ℝ)
    (h1 : 0.05 ≤ zoom) (h2 : zoom ≤ 5) :
    (handleWheelZoom rectLeft rectTop panX panY zoom clientX clientY deltaY).1 =
      max 0.05 (min 5 (zoom * (if 0 < deltaY then 0.9 else 1.1))) ∧
    screenToCanvas rectLeft rectTop
      (handleWheelZoom rectLeft rectTop panX panY zoom clientX clientY deltaY).2.1
      (handleWheelZoom rectLeft rectTop panX panY zoom clientX clientY deltaY).2.2
      (handleWheelZoom rectLeft rectTop panX panY zoom clientX clientY deltaY).1
      clientX clientY =
    screenToCanvas rectLeft rectTop panX panY zoom clientX clientY := by
  have hz : (0 : ℝ) < zoom := by norm_num at h1; linarith
  have hnz : (0.05 : ℝ) ≤ max 0.05 (min 5 (zoom * (if 0 < deltaY then 0.9 else 1.1))) :=
    le_max_left _ _
  have hZ : (0 : ℝ) < max 0.05 (min 5 (zoom * (if 0 < deltaY then 0.9 else 1.1))) :=
    lt_of_lt_of_le (by norm_num) hnz
  refine ⟨rfl, ?_⟩
  simp only [handleWheelZoom, screenToCanvas, Prod.mk.injEq]
  constructor <;> · field_simp; ring

/-- Claim C7 witness: starting from zoom 1 and pan (0,0), a scroll-down at
screen point (400,300) yields zoom 0.9 and pan (40,30), and the canvas
point under (400,300) is unchanged. -/
theorem wheel_zoom_fixed_point_witness :
    (handleWheelZoom 0 0 0 0 1 400 300 1 = (0.9, 40, 30)) ∧
    ((handleWheelZoom 0 0 0 0 1 400 300 1).1 =
      max 0.05 (min 5 (1 * (if (0 : ℝ) < 1 then 0.9 else 1.1))) ∧
    screenToCanvas 0 0
      (handleWheelZoom 0 0 0 0 1 400 300 1).2.1
      (handleWheelZoom 0 0 0 0 1 400 300 1).2.2
      (handleWheelZoom 0 0 0 0 1 400 300 1).1 400 300 =
    screenToCanvas 0 0 0 0 1 400 300) := by
  constructor
  · simp only [handleWheelZoom, Prod.mk.injEq]
    norm_num
  · exact wheel_zoom_fixed_point 0 0 0 0 1 400 300 1 (by norm_num) (by norm_num)

/-- Node of the dangling-delete counterexample. -/
def elDelA : Element :=
  { id := "A", type := "variable", x := 0, y := 0, width := none, height := none }

/-- Second node of the dangling-delete counterexample. -/
def elDelB : Element :=
  { id := "B", type := "variable", x := 100, y := 0, width := none, height := none }

/-- A connection from B to a node id C that does not exist (such diagrams
arise from imported files, which the renderers tolerate). -/
def connBC : Connection :=
  { id := "c1", source := "B", target := "C", type := "positive"
    curve := none, sourceAnchor := none, targetAnchor := none }

/-- Diagram with a pre-existing dangling edge. -/
def mDangling : Model := { elements := [elDelA, elDelB], connections := [connBC] }

/-- Claim C6 counterexample: the diagram mDangling contains node A, yet
after deleting A the committed diagram still has a connection whose target
C is a missing node id, so the universally stated claim is false. -/
theorem cascading_delete_counterexample :
    (mDangling.elements.any (fun el => el.id == "A")) = true ∧
    noDangling (deleteNode mDangling "A") = false := by
  exact ⟨rfl, rfl⟩

/-- Claim C6 (amended): deleting a node removes every connection that
references it as source or target, and when the diagram had no dangling
edges beforehand, the result has none either (deletion preserves the
no-dangling invariant; a pre-existing dangling edge to a third id would
survive, which is what the counterexample exhibits). -/
theorem cascading_delete (m : Model) (nodeId : String) (h : noDangling m = true) :
    (∀ c ∈ (deleteNode m nodeId).connections, c.source ≠ nodeId ∧ c.target ≠ nodeId) ∧
    noDangling (deleteNode m nodeId) = true := by
  constructor
  · intro c hc
    simp only [deleteNode, List.mem_filter, Bool.and_eq_true, bne_iff_ne, ne_eq] at hc
    exact ⟨hc.2.1, hc.2.2⟩
  · simp only [noDangling, List.all_eq_true, Bool.and_eq_true, List.any_eq_true] at h ⊢
    intro c hc
    simp only [deleteNode, List.mem_filter, Bool.and_eq_true, bne_iff_ne, ne_eq] at hc
    obtain ⟨hcm, hcs, hct⟩ := hc
    obtain ⟨⟨es, hes, hesid⟩, ⟨et, het, hetid⟩⟩ := h c hcm
    refine ⟨⟨es, ?_, hesid⟩, ⟨et, ?_, hetid⟩⟩
    · simp only [deleteNode, List.mem_filter, bne_iff_ne, ne_eq]
      refine ⟨hes, ?_⟩
      intro hid
      rw [beq_iff_eq] at hesid
      exact hcs (hesid ▸ hid)
    · simp only [deleteNode, List.mem_filter, bne_iff_ne, ne_eq]
      refine ⟨het, ?_⟩
      intro hid
      rw [beq_iff_eq] at hetid
      exact hct (hetid ▸ hid)

/-- A clean edge from A to B for the C6 witness. -/
def connAB : Connection :=
  { id := "c2", source := "A", target := "B", type := "positive"
    curve := none, sourceAnchor := none, targetAnchor := none }

/-- Diagram with no dangling edges for the C6 witness. -/
def mClean : Model := { elements := [elDelA, elDelB], connections := [connAB] }

/-- Claim C6 witness: deleting A from a clean diagram removes the edge
A to B and leaves no dangling edge. -/
theorem cascading_delete_witness :
    (∀ c ∈ (deleteNode mClean "A").connections, c.source ≠ "A" ∧ c.target ≠ "A") ∧
    noDangling (deleteNode mClean "A") = true :=
  cascading_delete mClean "A" (by rfl)

/-- Contribution of one element to the export bounding box, left edge:
`el.x - w/2 - 20` (SDCanvas.js line 718). -/
noncomputable def bboxEntryMinX (el : Element) : ℝ := el.x - (dimsBBox el).1 / 2 - 20

/-- Contribution of one element to the export bounding box, right edge
(line 720). -/
noncomputable def bboxEntryMaxX (el : Element) : ℝ := el.x + (dimsBBox el).1 / 2 + 20

/-- Contribution of one element to the export bounding box, top edge
(line 719). -/
noncomputable def bboxEntryMinY (el : Element) : ℝ := el.y - (dimsBBox el).2 / 2 - 20

/-- Contribution of one element to the export bounding box, bottom edge
(line 721). -/
noncomputable def bboxEntryMaxY (el : Element) : ℝ := el.y + (dimsBBox el).2 / 2 + 20

/-- The export minX: the JS loop starts from Infinity and takes the min
over all elements; over a nonempty list `e :: es` this equals the fold of
min over `es` started at the contribution of `e`. -/
noncomputable def bboxMinX (e : Element) (es : List Element) : ℝ :=
  es.foldl (fun acc el => min acc (bboxEntryMinX el)) (bboxEntryMinX e)

/-- The export maxX over a nonempty element list. -/
noncomputable def bboxMaxX (e : Element) (es : List Element) : ℝ :=
  es.foldl (fun acc el => max acc (bboxEntryMaxX el)) (bboxEntryMaxX e)

/-- The export minY over a nonempty element list. -/
noncomputable def bboxMinY (e : Element) (es : List Element) : ℝ :=
  es.foldl (fun acc el => min acc (bboxEntryMinY el)) (bboxEntryMinY e)

/-- The export maxY over a nonempty element list. -/
noncomputable def bboxMaxY (e : Element) (es : List Element) : ℝ :=
  es.foldl (fun acc el => max acc (bboxEntryMaxY el)) (bboxEntryMaxY e)

/-- The numeric skeleton of the generated export document: its dimensions
and the coordinate translation applied to every element. -/
structure SVGDoc where
  width : ℝ
  height : ℝ
  offsetX : ℝ
  offsetY : ℝ

/-- generateSVGContent (SDCanvas.js lines 704-727): returns null for an
empty element list; otherwise computes the bounding box over all nodes
expanded by their half-dimensions plus a 20 unit margin, and emits a
document of width `max(200, maxX - minX + 2*50)` and height
`max(150, maxY - minY + 2*50)`, translating by `(-minX+50, -minY+50)`.
The background option only selects the fill rectangle and does not affect
the geometry modelled here. -/
noncomputable def generateSVGContent (m : Model) (background : String) : Option SVGDoc :=
  match m.elements with
  | [] => none
  | e :: es =>
    let minX := bboxMinX e es
    let minY := bboxMinY e es
    let maxX := bboxMaxX e es
    let maxY := bboxMaxY e es
    some { width := max 200 (maxX - minX + 50 * 2)
           height := max 150 (maxY - minY + 50 * 2)
           offsetX := -minX + 50
           offsetY := -minY + 50 }

/-- The rasterized PNG canvas produced by exportPNG: the document
dimensions at the fixed 2x supersampling factor. -/
structure PNGDoc where
  width : ℝ
  height : ℝ

/-- exportSVG (SDCanvas.js lines 942-955): if generateSVGContent returns
null the function returns without producing a file; otherwise the
document is written out. -/
noncomputable def exportSVG (m : Model) (background : String) : Option SVGDoc :=
  match generateSVGContent m background with
  | none => none
  | some doc => some doc

/-- exportPNG (SDCanvas.js lines 957-1012): if generateSVGContent returns
null the function returns without producing a file; otherwise a canvas of
twice the document dimensions is rasterized. -/
noncomputable def exportPNG (m : Model) (background : String) : Option PNGDoc :=
  match generateSVGContent m background with
  | none => none
  | some doc => some { width := doc.width * 2, height := doc.height * 2 }

/-- A fold of min over a list is at most its initial accumulator. -/
theorem foldl_min_le_init (f : Element → ℝ) (a : ℝ) (l : List Element) :
    l.foldl (fun acc el => min acc (f el)) a ≤ a := by
  induction l generalizing a with
  | nil => simp
  | cons b t ih =>
    simp only [List.foldl_cons]
    exact le_trans (ih (min a (f b))) (min_le_left _ _)

/-- A fold of min over a list is at most the value of any member. -/
theorem foldl_min_le_mem (f : Element → ℝ) (a : ℝ) (l : List Element) (x : Element)
    (hx : x ∈ l) :
    l.foldl (fun acc el => min acc (f el)) a ≤ f x := by
  revert a
  induction l with
  | nil => cases hx
  | cons b t ih =>
    intro a
    simp only [List.foldl_cons]
    rcases List.mem_cons.mp hx with h | h
    · subst h
      exact le_trans (foldl_min_le_init f (min a (f x)) t) (min_le_right _ _)
    · exact ih h (min a (f b))

/-- A fold of max over a list is at least its initial accumulator. -/
theorem le_foldl_max_init (f : Element → ℝ) (a : ℝ) (l : List Element) :
    a ≤ l.foldl (fun acc el => max acc (f el)) a := by
  induction l generalizing a with
  | nil => simp
  | cons b t ih =>
    simp only [List.foldl_cons]
    exact le_trans (le_max_left _ _) (ih (max a (f b)))

/-- A fold of max over a list is at least the value of any member. -/
theorem le_foldl_max_mem (f : Element → ℝ) (a : ℝ) (l : List Element) (x : Element)
    (hx : x ∈ l) :
    f x ≤ l.foldl (fun acc el => max acc (f el)) a := by
  revert a
  induction l with
  | nil => cases hx
  | cons b t ih =>
    intro a
    simp only [List.foldl_cons]
    rcases List.mem_cons.mp hx with h | h
    · subst h
      exact le_trans (le_max_right _ _) (le_foldl_max_init f (max a (f x)) t)
    · exact ih h (max a (f b))

/-- The export minX bounds every member contribution from below. -/
theorem bboxMinX_le (e : Element) (es : List Element) (el : Element) (hel : el ∈ e :: es) :
    bboxMinX e es ≤ el.x - (dimsBBox el).1 / 2 - 20 := by
  rcases List.mem_cons.mp hel with h | h
  · subst h; exact foldl_min_le_init _ _ _
  · exact foldl_min_le_mem _ _ _ _ h

/-- The export maxX bounds every member contribution from above. -/
theorem le_bboxMaxX (e : Element) (es : List Element) (el : Element) (hel : el ∈ e :: es) :
    el.x + (dimsBBox el).1 / 2 + 20 ≤ bboxMaxX e es := by
  rcases List.mem_cons.mp hel with h | h
  · subst h; exact le_foldl_max_init bboxEntryMaxX _ _
  · exact le_foldl_max_mem bboxEntryMaxX _ _ _ h

/-- The export minY bounds every member contribution from below. -/
theorem bboxMinY_le (e : Element) (es : List Element) (el : Element) (hel : el ∈ e :: es) :
    bboxMinY e es ≤ el.y - (dimsBBox el).2 / 2 - 20 := by
  rcases List.mem_cons.mp hel with h | h
  · subst h; exact foldl_min_le_init _ _ _
  · exact foldl_min_le_mem _ _ _ _ h

/-- The export maxY bounds every member contribution from above. -/
theorem le_bboxMaxY (e : Element) (es : List Element) (el : Element) (hel : el ∈ e :: es) :
    el.y + (dimsBBox el).2 / 2 + 20 ≤ bboxMaxY e es := by
  rcases List.mem_cons.mp hel with h | h
  · subst h; exact le_foldl_max_init bboxEntryMaxY _ _
  · exact le_foldl_max_mem bboxEntryMaxY _ _ _ h

/-- The dimensions used to render an element in the export never exceed
its bounding-box dimensions by more than 140 units (the 40 unit total
margin plus the 100 unit total padding of the containment argument). The
two dimension functions agree on every shape except the circle without an
explicit width, whose bbox entry uses the generic 100 by 44 defaults while
the markup uses 40 by 40; there the height comparison needs the stored
height to be at least -100, which is exactly the boundary below which the
export counterexample escapes the document. -/
theorem getElDims_le_bbox (el : Element)
    (hconv : el.width = none → shapeOf el.type = Shape.circle → -100 ≤ el.height.getD 44) :
    (getElDims el).1 ≤ (dimsBBox el).1 + 140 ∧ (getElDims el).2 ≤ (dimsBBox el).2 + 140 := by
  unfold getElDims dimsBBox
  rcases hw : el.width with _ | w
  · rcases hs : shapeOf el.type <;> simp [hw, hs] <;> norm_num
    all_goals linarith [hconv hw hs]
  · simp [hw]

/-- Claim C10: for a diagram with an empty element list (connections
irrelevant), generateSVGContent returns null and both export entry points
return early without producing a document. -/
theorem export_empty_noop (m : Model) (bg : String) (h : m.elements = []) :
    generateSVGContent m bg = none ∧ exportSVG m bg = none ∧ exportPNG m bg = none := by
  have h1 : generateSVGContent m bg = none := by
    unfold generateSVGContent
    rw [h]
  refine ⟨h1, ?_, ?_⟩
  · unfold exportSVG
    rw [h1]
  · unfold exportPNG
    rw [h1]

/-- A diagram with no elements but one connection, for the C10 witness. -/
def mNoElements : Model := { elements := [], connections := [connAB] }

/-- Claim C10 witness: the empty-element diagram with a connection still
present produces no export document. -/
theorem export_empty_noop_witness :
    generateSVGContent mNoElements "white" = none ∧ exportSVG mNoElements "white" = none ∧
      exportPNG mNoElements "white" = none :=
  export_empty_noop mNoElements "white" rfl

/-- Claim C3 (amended): the export document width is
`max(200, (maxX-minX)+2*padding)` and its height
`max(150, (maxY-minY)+2*padding)` — the claimed equalities hold exactly
when the padded bounding box reaches the 200 by 150 minimum document
size — and no node renders outside `[0,width] x [0,height]` after the
`(-minX+padding, -minY+padding)` translation, provided every
circle-shaped node without an explicit width has stored height at least
-100. That bound is exact: the bbox loop has no circle case, so such a
node contributes an inverted 100 by h box, and below -100 the rendered 40
by 40 circle escapes the document, as the counterexample shows; every
other shape uses identical dimensions in both passes and tolerates any
stored height. -/
theorem export_bbox_dims (m : Model) (bg : String) (e : Element) (es : List Element)
    (doc : SVGDoc) (h : m.elements = e :: es) (hdoc : generateSVGContent m bg = some doc)
    (hconv : ∀ el ∈ m.elements, el.width = none → shapeOf el.type = Shape.circle →
      -100 ≤ el.height.getD 44) :
    (200 ≤ bboxMaxX e es - bboxMinX e es + 2 * 50 →
      doc.width = bboxMaxX e es - bboxMinX e es + 2 * 50) ∧
    (150 ≤ bboxMaxY e es - bboxMinY e es + 2 * 50 →
      doc.height = bboxMaxY e es - bboxMinY e es + 2 * 50) ∧
    ∀ el ∈ m.elements,
      0 ≤ el.x + doc.offsetX - (getElDims el).1 / 2 ∧
      el.x + doc.offsetX + (getElDims el).1 / 2 ≤ doc.width ∧
      0 ≤ el.y + doc.offsetY - (getElDims el).2 / 2 ∧
      el.y + doc.offsetY + (getElDims el).2 / 2 ≤ doc.height := by
  unfold generateSVGContent at hdoc
  rw [h] at hdoc
  simp only [Option.some.injEq] at hdoc
  subst hdoc
  refine ⟨?_, ?_, ?_⟩
  · intro hmin
    show max 200 (bboxMaxX e es - bboxMinX e es + 50 * 2) = _
    rw [max_eq_right (by linarith)]
    ring
  · intro hmin
    show max 150 (bboxMaxY e es - bboxMinY e es + 50 * 2) = _
    rw [max_eq_right (by linarith)]
    ring
  · intro el hel
    have hel2 : el ∈ e :: es := h ▸ hel
    have hminx := bboxMinX_le e es el hel2
    have hmaxx := le_bboxMaxX e es el hel2
    have hminy := bboxMinY_le e es el hel2
    have hmaxy := le_bboxMaxY e es el hel2
    have hdims := getElDims_le_bbox el (hconv el hel)
    have hwidth : bboxMaxX e es - bboxMinX e es + 50 * 2 ≤
        max 200 (bboxMaxX e es - bboxMinX e es + 50 * 2) := le_max_right _ _
    have hheight : bboxMaxY e es - bboxMinY e es + 50 * 2 ≤
        max 150 (bboxMaxY e es - bboxMinY e es + 50 * 2) := le_max_right _ _
    refine ⟨?_, ?_, ?_, ?_⟩ <;>
      simp only [SVGDoc.offsetX, SVGDoc.offsetY, SVGDoc.width, SVGDoc.height] <;>
      [skip; exact le_trans (by linarith [hdims.1]) hwidth; skip;
        exact le_trans (by linarith [hdims.2]) hheight] <;>
      linarith [hdims.1, hdims.2]

/-- A flow node at the origin with default dimensions, for the C3
counterexample. -/
def elFlow : Element :=
  { id := "F", type := "flow", x := 0, y := 0, width := none, height := none }

/-- A diagram of that single flow node. -/
def mFlow : Model := { elements := [elFlow], connections := [] }

/-- The shape of the flow type string. -/
theorem shapeOf_flow : shapeOf "flow" = Shape.valve := rfl

/-- A converter node without an explicit width whose stored height is
-300, below the -100 boundary. -/
def elConvNeg : Element :=
  { id := "K", type := "converter", x := 0, y := 0, width := none, height := some (-300) }

/-- A diagram of that single converter node. -/
def mConvNeg : Model := { elements := [elConvNeg], connections := [] }

/-- The shape of the converter type string. -/
theorem shapeOf_converter : shapeOf "converter" = Shape.circle := rfl

/-- Claim C3 counterexample, refuting both halves of the claim as stated.
First, for the single-flow-node diagram the padded bounding box is 80 wide
plus twice the 50 padding, i.e. 180, but the generated document width is
the 200 minimum, so width does not equal `(maxX-minX) + 2*padding`.
Second, for the single-converter diagram with stored height -300 (the bbox
loop has no circle case, so the node contributes an inverted 100 by -300
box) the document is 150 high with offsetY -80, and the rendered 40 by 40
circle spans [-100, -60]: the node renders outside `[0,height]`. -/
theorem export_bbox_counterexample :
    ((generateSVGContent mFlow "white").map (fun d => d.width) = some 200 ∧
    bboxMaxX elFlow [] - bboxMinX elFlow [] + 2 * 50 = (180 : ℝ) ∧
    (200 : ℝ) ≠ 180) ∧
    ((generateSVGContent mConvNeg "white").map (fun d => (d.height, d.offsetY)) =
      some ((150 : ℝ), (-80 : ℝ)) ∧
    elConvNeg.y + (-80 : ℝ) - (getElDims elConvNeg).2 / 2 < 0) := by
  constructor
  · have hb : bboxMaxX elFlow [] - bboxMinX elFlow [] + 2 * 50 = (180 : ℝ) := by
      unfold bboxMaxX bboxMinX bboxEntryMaxX bboxEntryMinX
      simp only [List.foldl_nil]
      have hd : dimsBBox elFlow = (40, 34) := by
        unfold dimsBBox
        simp [elFlow, shapeOf_flow]
      rw [hd]
      simp [elFlow]
      norm_num
    refine ⟨?_, hb, by norm_num⟩
    unfold generateSVGContent
    show (Option.map _ (some _)) = _
    simp only [Option.map_some']
    congr 1
    show max 200 (bboxMaxX elFlow [] - bboxMinX elFlow [] + 50 * 2) = (200 : ℝ)
    rw [max_eq_left (by linarith)]
  · have hd : dimsBBox elConvNeg = (100, -300) := rfl
    have hminY : bboxMinY elConvNeg [] = 130 := by
      unfold bboxMinY bboxEntryMinY
      simp only [List.foldl_nil]
      rw [hd]
      simp [elConvNeg]
      norm_num
    have hmaxY : bboxMaxY elConvNeg [] = -130 := by
      unfold bboxMaxY bboxEntryMaxY
      simp only [List.foldl_nil]
      rw [hd]
      simp [elConvNeg]
      norm_num
    constructor
    · unfold generateSVGContent
      show (Option.map _ (some _)) = _
      simp only [Option.map_some']
      have hheight : max 150 (bboxMaxY elConvNeg [] - bboxMinY elConvNeg [] + 50 * 2) =
          (150 : ℝ) := by
        rw [hminY, hmaxY, max_eq_left (by norm_num)]
      have hoff : -(bboxMinY elConvNeg []) + 50 = (-80 : ℝ) := by
        rw [hminY]
        norm_num
      rw [hheight, hoff]
    · have hg : getElDims elConvNeg = (40, 40) := rfl
      rw [hg, show elConvNeg.y = (0 : ℝ) from rfl]
      norm_num

/-- A stock node at the origin with default dimensions, for the C3
witness. -/
def elStock : Element :=
  { id := "S", type := "stock", x := 0, y := 0, width := none, height := none }

/-- A diagram of that single stock node. -/
def mStock : Model := { elements := [elStock], connections := [] }

/-- The export document generated for the single-stock diagram. -/
def docStock : SVGDoc := { width := 240, height := 184, offsetX := 120, offsetY := 92 }

/-- The shape of the stock type string. -/
theorem shapeOf_stock : shapeOf "stock" = Shape.rect := rfl

/-- The bbox dimensions of the default stock node. -/
theorem dimsBBox_elStock : dimsBBox elStock = (100, 44) := by
  unfold dimsBBox
  simp [elStock, shapeOf_stock]

/-- Claim C3 witness: the single-stock diagram meets the minimum document
size, its export document is 240 by 184, and the node renders inside it. -/
theorem export_bbox_dims_witness :
    (200 ≤ bboxMaxX elStock [] - bboxMinX elStock [] + 2 * 50 →
      docStock.width = bboxMaxX elStock [] - bboxMinX elStock [] + 2 * 50) ∧
    (150 ≤ bboxMaxY elStock [] - bboxMinY elStock [] + 2 * 50 →
      docStock.height = bboxMaxY elStock [] - bboxMinY elStock [] + 2 * 50) ∧
    ∀ el ∈ mStock.elements,
      0 ≤ el.x + docStock.offsetX - (getElDims el).1 / 2 ∧
      el.x + docStock.offsetX + (getElDims el).1 / 2 ≤ docStock.width ∧
      0 ≤ el.y + docStock.offsetY - (getElDims el).2 / 2 ∧
      el.y + docStock.offsetY + (getElDims el).2 / 2 ≤ docStock.height := by
  refine export_bbox_dims mStock "white" elStock [] docStock rfl ?_ ?_
  · unfold generateSVGContent
    show some _ = some docStock
    unfold bboxMinX bboxMaxX bboxMinY bboxMaxY
    simp only [List.foldl_nil, Option.some.injEq]
    unfold bboxEntryMinX bboxEntryMaxX bboxEntryMinY bboxEntryMaxY
    rw [dimsBBox_elStock]
    unfold docStock
    simp [elStock]
    norm_num [max_def]
  · intro el hel h1 h2
    simp only [mStock, List.mem_singleton] at hel
    subst hel
    exact Shape.noConfusion ((rfl : shapeOf elStock.type = Shape.rect) ▸ h2)

/-- The mathematical semantics of `Math.atan2(y, x)`: the angle of the
vector (x, y) in the range (-pi, pi], with atan2 0 0 = 0. -/
noncomputable def atan2 (y x : ℝ) : ℝ :=
  if 0 < x then Real.arctan (y / x)
  else if x < 0 ∧ 0 ≤ y then Real.arctan (y / x) + Real.pi
  else if x < 0 ∧ y < 0 then Real.arctan (y / x) - Real.pi
  else if x = 0 ∧ 0 < y then Real.pi / 2
  else if x = 0 ∧ y < 0 then -(Real.pi / 2)
  else 0

/-- The auto branch of getEdgePoint (SDCanvas.js lines 1472-1505): compute
the angle toward the target; elliptical shapes use the parametric point,
rectangular shapes compare the angle with the corner angle to decide which
side the ray exits and solve for the intersection on that side. This is
inlined in getEdgePoint in the source and factored out here so the claims
about the auto behaviour can name it. -/
noncomputable def autoEdgePoint (element : Element) (targetX targetY : ℝ) : ℝ × ℝ :=
  let shape := shapeOf element.type
  let halfWidth := (dimsEdge element).1 / 2
  let halfHeight := (dimsEdge element).2 / 2
  let dx := targetX - element.x
  let dy := targetY - element.y
  let angle := atan2 dy dx
  if shape = Shape.loop ∨ shape = Shape.cloud ∨ shape = Shape.circle then
    let r := if shape = Shape.circle then min halfWidth halfHeight else halfWidth
    let ry := if shape = Shape.circle then r else halfHeight
    (element.x + Real.cos angle * r, element.y + Real.sin angle * ry)
  else
    let absAngle := |angle|
    let cornerAngle := atan2 halfHeight halfWidth
    if absAngle < cornerAngle ∨ Real.pi - cornerAngle < absAngle then
      let edgeX := if 0 < dx then halfWidth else -halfWidth
      (element.x + edgeX, element.y + edgeX * Real.tan angle)
    else
      let edgeY := if 0 < dy then halfHeight else -halfHeight
      (element.x + edgeY / Real.tan angle, element.y + edgeY)

/-- getEdgePoint (SDCanvas.js lines 1443-1506): a pinned anchor returns
the midpoint of that side; any other anchor value (including "auto" and
the absent anchor) falls through the switch to the auto computation. -/
noncomputable def getEdgePoint (element : Element) (targetX targetY : ℝ)
    (anchor : Option String) : ℝ × ℝ :=
  let halfWidth := (dimsEdge element).1 / 2
  let halfHeight := (dimsEdge element).2 / 2
  match anchor with
  | some "top" => (element.x, element.y - halfHeight)
  | some "bottom" => (element.x, element.y + halfHeight)
  | some "left" => (element.x - halfWidth, element.y)
  | some "right" => (element.x + halfWidth, element.y)
  | _ => autoEdgePoint element targetX targetY

/-- The auto branch of the export helper getExportEdgePoint
(SDCanvas.js lines 833-853): identical geometry but on coordinates
translated by the export offset and with the getElDims dimensions. -/
noncomputable def autoExportEdgePoint (element : Element) (targetX targetY offX offY : ℝ) :
    ℝ × ℝ :=
  let shape := shapeOf element.type
  let elX := element.x + offX
  let elY := element.y + offY
  let halfW := (getElDims element).1 / 2
  let halfH := (getElDims element).2 / 2
  let dx := targetX - elX
  let dy := targetY - elY
  let angle := atan2 dy dx
  if shape = Shape.loop ∨ shape = Shape.cloud ∨ shape = Shape.circle then
    let r := if shape = Shape.circle then min halfW halfH else halfW
    let ry := if shape = Shape.circle then r else halfH
    (elX + Real.cos angle * r, elY + Real.sin angle * ry)
  else
    let absAngle := |angle|
    let cornerAngle := atan2 halfH halfW
    if absAngle < cornerAngle ∨ Real.pi - cornerAngle < absAngle then
      let edgeX := if 0 < dx then halfW else -halfW
      (elX + edgeX, elY + edgeX * Real.tan angle)
    else
      let edgeY := if 0 < dy then halfH else -halfH
      (elX + edgeY / Real.tan angle, elY + edgeY)

/-- getExportEdgePoint (SDCanvas.js lines 813-854). -/
noncomputable def getExportEdgePoint (element : Element) (targetX targetY offX offY : ℝ)
    (anchor : Option String) : ℝ × ℝ :=
  let elX := element.x + offX
  let elY := element.y + offY
  let halfW := (getElDims element).1 / 2
  let halfH := (getElDims element).2 / 2
  match anchor with
  | some "top" => (elX, elY - halfH)
  | some "bottom" => (elX, elY + halfH)
  | some "left" => (elX - halfW, elY)
  | some "right" => (elX + halfW, elY)
  | _ => autoExportEdgePoint element targetX targetY offX offY

/-- The intermediate values of a rendered connection: guarded segment
length, perpendicular vector, curve control point, edge points and the
arrowhead-adjusted end point. -/
structure ConnRender where
  len : ℝ
  perpX : ℝ
  perpY : ℝ
  ctrlX : ℝ
  ctrlY : ℝ
  sourceEdge : ℝ × ℝ
  targetEdge : ℝ × ℝ
  endX : ℝ
  endY : ℝ

/-- renderConnection (SDCanvas.js lines 1523-1555): returns null if either
endpoint id has no matching element; otherwise computes the curve control
point from the perpendicular of the center-to-center segment (length
guarded by `|| 1`), the two edge points, and the end point pulled back 8
units toward the control point. Totality of this function models the
absence of thrown errors. -/
noncomputable def renderConnection (m : Model) (conn : Connection) : Option ConnRender :=
  match m.elements.find? (fun el => el.id == conn.source),
        m.elements.find? (fun el => el.id == conn.target) with
  | some source, some target =>
    let curve := conn.curve.getD 80
    let dx := target.x - source.x
    let dy := target.y - source.y
    let len0 := Real.sqrt (dx * dx + dy * dy)
    let len := if len0 = 0 then 1 else len0
    let perpX := -dy / len
    let perpY := dx / len
    let midX := (source.x + target.x) / 2
    let midY := (source.y + target.y) / 2
    let ctrlX := midX + perpX * curve
    let ctrlY := midY + perpY * curve
    let sourceEdge := getEdgePoint source ctrlX ctrlY conn.sourceAnchor
    let targetEdge := getEdgePoint target ctrlX ctrlY conn.targetAnchor
    let toX := targetEdge.1 - ctrlX
    let toY := targetEdge.2 - ctrlY
    let toLen0 := Real.sqrt (toX * toX + toY * toY)
    let toLen := if toLen0 = 0 then 1 else toLen0
    some { len := len, perpX := perpX, perpY := perpY, ctrlX := ctrlX, ctrlY := ctrlY,
           sourceEdge := sourceEdge, targetEdge := targetEdge,
           endX := targetEdge.1 - toX / toLen * 8, endY := targetEdge.2 - toY / toLen * 8 }
  | _, _ => none

/-- The connection geometry of the export serializer (SDCanvas.js lines
857-887): the connectionsMarkup map emits the empty string for a
connection with a missing endpoint, modelled as none; otherwise the same
control-point and edge-point computation as the interactive renderer, on
offset coordinates. -/
noncomputable def exportConnGeometry (m : Model) (offX offY : ℝ) (conn : Connection) :
    Option ConnRender :=
  match m.elements.find? (fun el => el.id == conn.source),
        m.elements.find? (fun el => el.id == conn.target) with
  | some source, some target =>
    let curve := conn.curve.getD 80
    let sx := source.x + offX
    let sy := source.y + offY
    let tx := target.x + offX
    let ty := target.y + offY
    let dx := tx - sx
    let dy := ty - sy
    let len0 := Real.sqrt (dx * dx + dy * dy)
    let len := if len0 = 0 then 1 else len0
    let perpX := -dy / len
    let perpY := dx / len
    let midX := (sx + tx) / 2
    let midY := (sy + ty) / 2
    let ctrlX := midX + perpX * curve
    let ctrlY := midY + perpY * curve
    let sourceEdge := getExportEdgePoint source ctrlX ctrlY offX offY conn.sourceAnchor
    let targetEdge := getExportEdgePoint target ctrlX ctrlY offX offY conn.targetAnchor
    let toX := targetEdge.1 - ctrlX
    let toY := targetEdge.2 - ctrlY
    let toLen0 := Real.sqrt (toX * toX + toY * toY)
    let toLen := if toLen0 = 0 then 1 else toLen0
    some { len := len, perpX := perpX, perpY := perpY, ctrlX := ctrlX, ctrlY := ctrlY,
           sourceEdge := sourceEdge, targetEdge := targetEdge,
           endX := targetEdge.1 - toX / toLen * 8, endY := targetEdge.2 - toY / toLen * 8 }
  | _, _ => none

/-- Claim C9: a connection whose source or target id matches no element is
skipped by the interactive renderer (null) and by the export serializer
(empty markup, modelled as none); both functions are total, so neither
path throws. -/
theorem dangling_skipped (m : Model) (conn : Connection)
    (h : m.elements.find? (fun el => el.id == conn.source) = none ∨
         m.elements.find? (fun el => el.id == conn.target) = none) :
    renderConnection m conn = none ∧
    ∀ offX offY, exportConnGeometry m offX offY conn = none := by
  constructor
  · unfold renderConnection
    rcases h with h | h
    · rw [h]
    · rw [h]
      cases m.elements.find? (fun el => el.id == conn.source) <;> rfl
  · intro offX offY
    unfold exportConnGeometry
    rcases h with h | h
    · rw [h]
    · rw [h]
      cases m.elements.find? (fun el => el.id == conn.source) <;> rfl

/-- The dangling edge of the import scenario. -/
def connDangling : Connection :=
  { id := "x1", source := "a", target := "b", type := "positive"
    curve := none, sourceAnchor := none, targetAnchor := none }

/-- The imported diagram with no elements and one dangling edge. -/
def mImport : Model := { elements := [], connections := [connDangling] }

/-- Claim C9 witness: the dangling edge of the import scenario renders as
absent on both paths. -/
theorem dangling_skipped_witness :
    renderConnection mImport connDangling = none ∧
    ∀ offX offY, exportConnGeometry mImport offX offY connDangling = none :=
  dangling_skipped mImport connDangling (Or.inl rfl)

/-- Claim C4 (amended): when source and target centers coincide, the code
does not fall back to a fixed default direction; instead the `|| 1` guard
replaces the zero segment length by 1, which makes the perpendicular the
zero vector and puts the control point at the shared center. No division
by zero occurs (every divisor used is the guarded nonzero length) and both
the interactive and the export paths still produce a result. -/
theorem coincident_fallback (m : Model) (conn : Connection) (source target : Element)
    (hs : m.elements.find? (fun el => el.id == conn.source) = some source)
    (ht : m.elements.find? (fun el => el.id == conn.target) = some target)
    (hx : target.x = source.x) (hy : target.y = source.y) :
    (∃ r, renderConnection m conn = some r ∧
      r.len = 1 ∧ r.perpX = 0 ∧ r.perpY = 0 ∧ r.ctrlX = source.x ∧ r.ctrlY = source.y) ∧
    ∀ offX offY, ∃ r, exportConnGeometry m offX offY conn = some r ∧
      r.len = 1 ∧ r.perpX = 0 ∧ r.perpY = 0 ∧
      r.ctrlX = source.x + offX ∧ r.ctrlY = source.y + offY := by
  constructor
  · unfold renderConnection
    rw [hs, ht]
    refine ⟨_, rfl, ?_, ?_, ?_, ?_, ?_⟩ <;>
      simp only [hx, hy, sub_self, mul_zero, zero_mul, add_zero, Real.sqrt_zero] <;>
      norm_num
  · intro offX offY
    unfold exportConnGeometry
    rw [hs, ht]
    refine ⟨_, rfl, ?_, ?_, ?_, ?_, ?_⟩ <;>
      simp only [hx, hy] <;>
      ring_nf <;>
      simp only [sub_self, mul_zero, zero_mul, add_zero, Real.sqrt_zero] <;>
      norm_num <;>
      ring

/-- A variable node for the coincident-center scenario. -/
def elP : Element :=
  { id := "P", type := "variable", x := 10, y := 20, width := none, height := none }

/-- A second variable node at exactly the same center. -/
def elQ : Element :=
  { id := "Q", type := "variable", x := 10, y := 20, width := none, height := none }

/-- A connection between the two coincident nodes. -/
def connPQ : Connection :=
  { id := "c3", source := "P", target := "Q", type := "positive"
    curve := none, sourceAnchor := none, targetAnchor := none }

/-- The diagram with two coincident nodes and the edge between them. -/
def mCoincident : Model := { elements := [elP, elQ], connections := [connPQ] }

/-- Claim C4 witness: the guarded fallback at the concrete coincident
diagram. -/
theorem coincident_fallback_witness :
    (∃ r, renderConnection mCoincident connPQ = some r ∧
      r.len = 1 ∧ r.perpX = 0 ∧ r.perpY = 0 ∧ r.ctrlX = elP.x ∧ r.ctrlY = elP.y) ∧
    ∀ offX offY, ∃ r, exportConnGeometry mCoincident offX offY connPQ = some r ∧
      r.len = 1 ∧ r.perpX = 0 ∧ r.perpY = 0 ∧
      r.ctrlX = elP.x + offX ∧ r.ctrlY = elP.y + offY :=
  coincident_fallback mCoincident connPQ elP elQ rfl rfl rfl rfl

/-- Claim C4 counterexample: at the coincident diagram the perpendicular
actually used is the zero vector (0, 0), whose squared norm is 0, so it is
not a unit vector in any fixed default direction such as the vertical. -/
theorem coincident_not_unit_counterexample :
    (renderConnection mCoincident connPQ).map (fun r => (r.perpX, r.perpY)) =
      some ((0 : ℝ), (0 : ℝ)) ∧
    ((0 : ℝ) ^ 2 + (0 : ℝ) ^ 2 ≠ 1) := by
  constructor
  · unfold renderConnection
    have hs : mCoincident.elements.find? (fun el => el.id == connPQ.source) = some elP := rfl
    have ht : mCoincident.elements.find? (fun el => el.id == connPQ.target) = some elQ := rfl
    rw [hs, ht]
    simp only [Option.map_some']
    simp [elP, elQ]
  · norm_num

/-- The mathematical semantics of `Math.round`: floor of x + 1/2 (rounds
halfway cases up). -/
noncomputable def jsRound (x : ℝ) : ℤ := ⌊x + 1 / 2⌋

/-- The projection computed by the DraggingCurve branch of handleMouseMove
(SDCanvas.js lines 272-282): the vector from the segment midpoint to the
pointer, projected onto the perpendicular of the source-to-target segment
whose length is guarded by `|| 1`. Inlined in the source and factored out
here so the claims can name it. -/
noncomputable def curveProjection (source target : Element) (posX posY : ℝ) : ℝ :=
  let midX := (source.x + target.x) / 2
  let midY := (source.y + target.y) / 2
  let dx := target.x - source.x
  let dy := target.y - source.y
  let len0 := Real.sqrt (dx * dx + dy * dy)
  let len := if len0 = 0 then 1 else len0
  let perpX := -dy / len
  let perpY := dx / len
  let offsetX := posX - midX
  let offsetY := posY - midY
  offsetX * perpX + offsetY * perpY

/-- The DraggingCurve branch of handleMouseMove (SDCanvas.js lines
265-292): find the dragged connection and its endpoints; if both exist,
round the perpendicular projection, clamp it to [-200, 200] and commit the
new curve into the connection. -/
noncomputable def draggingCurveUpdate (m : Model) (connId : String) (posX posY : ℝ) : Model :=
  match m.connections.find? (fun c => c.id == connId) with
  | none => m
  | some conn =>
    match m.elements.find? (fun el => el.id == conn.source),
          m.elements.find? (fun el => el.id == conn.target) with
    | some source, some target =>
      let curve := jsRound (curveProjection source target posX posY)
      { m with connections := m.connections.map (fun c =>
          if c.id == connId then { c with curve := some (max (-200) (min 200 (curve : ℝ))) }
          else c) }
    | _, _ => m

/-- Claim C8 (amended): during DraggingCurve, the curve committed for the
dragged connection is the perpendicular projection of the pointer offset
from the midpoint, rounded to the nearest integer (the claim omits the
`Math.round`), then clamped to [-200, 200]; the committed value always
lies within [-200, 200]. -/
theorem curve_drag_clamp (m : Model) (connId : String) (posX posY : ℝ)
    (conn : Connection) (source target : Element)
    (hc : m.connections.find? (fun c => c.id == connId) = some conn)
    (hs : m.elements.find? (fun el => el.id == conn.source) = some source)
    (ht : m.elements.find? (fun el => el.id == conn.target) = some target) :
    ∀ c ∈ (draggingCurveUpdate m connId posX posY).connections, c.id = connId →
      c.curve = some (max (-200) (min 200
        ((jsRound (curveProjection source target posX posY) : ℤ) : ℝ))) ∧
      -200 ≤ max (-200 : ℝ) (min 200
        ((jsRound (curveProjection source target posX posY) : ℤ) : ℝ)) ∧
      max (-200 : ℝ) (min 200
        ((jsRound (curveProjection source target posX posY) : ℤ) : ℝ)) ≤ 200 := by
  unfold draggingCurveUpdate
  simp only [hc, hs, ht]
  intro c hmem hid
  simp only [List.mem_map] at hmem
  obtain ⟨c0, hc0, rfl⟩ := hmem
  by_cases h : (c0.id == connId) = true
  · rw [if_pos h]
    refine ⟨rfl, le_max_left _ _, ?_⟩
    exact max_le (by norm_num) (min_le_left _ _)
  · rw [if_neg h] at hid
    rw [beq_iff_eq] at h
    exact absurd hid h

/-- Source node of the curve-drag scenario. -/
def elS : Element :=
  { id := "S1", type := "variable", x := 0, y := 0, width := none, height := none }

/-- Target node of the curve-drag scenario. -/
def elT : Element :=
  { id := "T1", type := "variable", x := 2, y := 0, width := none, height := none }

/-- The dragged connection of the curve-drag scenario. -/
def connST : Connection :=
  { id := "c4", source := "S1", target := "T1", type := "positive"
    curve := some 0, sourceAnchor := none, targetAnchor := none }

/-- The diagram of the curve-drag scenario. -/
def mCurve : Model := { elements := [elS, elT], connections := [connST] }

/-- The connection as committed by the concrete curve drag. -/
noncomputable def connSTUpdated : Connection :=
  { connST with curve := some (max (-200) (min 200
      ((jsRound (curveProjection elS elT 1 (1 / 2)) : ℤ) : ℝ))) }

/-- Claim C8 witness: the clamp property at the concrete curve-drag
scenario, instantiated at the committed connection. -/
theorem curve_drag_clamp_witness :
    connSTUpdated.curve = some (max (-200) (min 200
      ((jsRound (curveProjection elS elT 1 (1 / 2)) : ℤ) : ℝ))) ∧
    -200 ≤ max (-200 : ℝ) (min 200
      ((jsRound (curveProjection elS elT 1 (1 / 2)) : ℤ) : ℝ)) ∧
    max (-200 : ℝ) (min 200
      ((jsRound (curveProjection elS elT 1 (1 / 2)) : ℤ) : ℝ)) ≤ 200 :=
  curve_drag_clamp mCurve "c4" 1 (1 / 2) connST elS elT rfl rfl rfl connSTUpdated
    (List.Mem.head _) rfl

/-- The perpendicular projection of the curve-drag scenario evaluates to
one half. -/
theorem curveProjection_half : curveProjection elS elT 1 (1 / 2) = 1 / 2 := by
  unfold curveProjection
  simp only [elS, elT]
  norm_num
  rw [show (4 : ℝ) = 2 ^ 2 by norm_num, Real.sqrt_sq (by norm_num : (0 : ℝ) ≤ 2)]
  norm_num

/-- The rounded projection of the curve-drag scenario is 1. -/
theorem jsRound_half : jsRound (curveProjection elS elT 1 (1 / 2)) = 1 := by
  unfold jsRound
  rw [curveProjection_half]
  rw [show (1 : ℝ) / 2 + 1 / 2 = 1 by norm_num]
  exact Int.floor_one

/-- Claim C8 counterexample: at the curve-drag scenario the committed
curve is 1 (the rounded projection), while the projection clamped to
[-200, 200] is one half, so the committed value is not the clamped
projection. -/
theorem curve_drag_round_counterexample :
    ((draggingCurveUpdate mCurve "c4" 1 (1 / 2)).connections.map (fun c => c.curve)) =
      [some 1] ∧
    max (-200 : ℝ) (min 200 (curveProjection elS elT 1 (1 / 2))) = 1 / 2 ∧
    ((1 : ℝ) ≠ 1 / 2) := by
  refine ⟨?_, ?_, by norm_num⟩
  · have step : ((draggingCurveUpdate mCurve "c4" 1 (1 / 2)).connections.map (fun c => c.curve)) =
        [some (max (-200) (min 200
          ((jsRound (curveProjection elS elT 1 (1 / 2)) : ℤ) : ℝ)))] := rfl
    rw [step, jsRound_half]
    norm_num
  · rw [curveProjection_half]
    norm_num

/-- The absolute value of arctan is arctan of the absolute value. -/
theorem abs_arctan (x : ℝ) : |Real.arctan x| = Real.arctan |x| := by
  rcases le_or_lt 0 x with h | h
  · rw [abs_of_nonneg h, abs_of_nonneg]
    have := Real.arctan_strictMono.monotone h
    rwa [Real.arctan_zero] at this
  · rw [abs_of_neg h, abs_of_neg, ← Real.arctan_neg]
    have := Real.arctan_strictMono h
    rwa [Real.arctan_zero] at this

/-- The tangent of atan2 y x recovers the slope y / x whenever x is
nonzero (on either half plane, by pi-periodicity of tan). -/
theorem tan_atan2 (y x : ℝ) (hx : x ≠ 0) : Real.tan (atan2 y x) = y / x := by
  unfold atan2
  rcases hx.lt_or_lt with h | h
  · rw [if_neg (by linarith : ¬ 0 < x)]
    rcases le_or_lt 0 y with hy | hy
    · rw [if_pos ⟨h, hy⟩, Real.tan_add_pi, Real.tan_arctan]
    · rw [if_neg (fun hc => absurd hy (not_lt.mpr hc.2)), if_pos ⟨h, hy⟩,
        Real.tan_sub_pi, Real.tan_arctan]
  · rw [if_pos h, Real.tan_arctan]

/-- On the vertical axis atan2 is plus or minus pi over two, where the
real tangent takes the junk value 0 (matching the harmless huge-slope
behaviour of floating point tan there: the quotient by it stays inside
the box). -/
theorem tan_atan2_zero (y : ℝ) : Real.tan (atan2 y 0) = 0 := by
  unfold atan2
  rw [if_neg (lt_irrefl 0), if_neg (fun hc => absurd hc.1 (lt_irrefl 0)),
    if_neg (fun hc => absurd hc.1 (lt_irrefl 0))]
  rcases lt_trichotomy 0 y with hy | hy | hy
  · rw [if_pos ⟨rfl, hy⟩, Real.tan_pi_div_two]
  · rw [if_neg (fun hc => absurd hc.2 (by rw [← hy]; exact lt_irrefl 0)),
      if_neg (fun hc => absurd hc.2 (by rw [← hy]; exact lt_irrefl 0)), Real.tan_zero]
  · rw [if_neg (fun hc => absurd hc.2 (not_lt.mpr hy.le)), if_pos ⟨rfl, hy⟩,
      Real.tan_neg, Real.tan_pi_div_two, neg_zero]

/-- atan2 on the right half plane is the arctangent of the slope. -/
theorem atan2_pos_x (y x : ℝ) (hx : 0 < x) : atan2 y x = Real.arctan (y / x) := by
  unfold atan2
  rw [if_pos hx]

/-- The branch test of the rectangular edge-point computation: the ray
angle lies inside the left or right corner cone (strictly closer to the
horizontal than the corner angle) exactly when the slope comparison
`|y| * halfWidth < halfHeight * |x|` holds. -/
theorem atan2_branch_iff (y x hgtH hgtW : ℝ) (hW : 0 < hgtW) (hH : 0 < hgtH)
    (hne : ¬(x = 0 ∧ y = 0)) :
    (|atan2 y x| < atan2 hgtH hgtW ∨ Real.pi - atan2 hgtH hgtW < |atan2 y x|) ↔
      |y| * hgtW < hgtH * |x| := by
  rw [atan2_pos_x hgtH hgtW hW]
  have hc0 : 0 < Real.arctan (hgtH / hgtW) := by
    have := Real.arctan_strictMono (div_pos hH hW)
    rwa [Real.arctan_zero] at this
  have hcpi : Real.arctan (hgtH / hgtW) < Real.pi / 2 := Real.arctan_lt_pi_div_two _
  rcases lt_trichotomy 0 x with hx | hx | hx
  · -- ray points right
    rw [atan2_pos_x y x hx, abs_arctan, abs_div, abs_of_pos hx]
    constructor
    · rintro (h | h)
      · have h2 := Real.arctan_strictMono.lt_iff_lt.mp h
        rwa [div_lt_div_iff hx hW] at h2
      · exfalso
        have := Real.arctan_lt_pi_div_two (|y| / x)
        linarith
    · intro h
      left
      apply Real.arctan_strictMono
      rw [div_lt_div_iff hx hW]
      exact h
  · -- x = 0, y must be nonzero
    subst hx
    have hy : y ≠ 0 := fun h => hne ⟨rfl, h⟩
    have habs : |atan2 y 0| = Real.pi / 2 := by
      unfold atan2
      rw [if_neg (lt_irrefl 0), if_neg (fun hc => absurd hc.1 (lt_irrefl 0)),
        if_neg (fun hc => absurd hc.1 (lt_irrefl 0))]
      rcases hy.lt_or_lt with h | h
      · rw [if_neg (fun hc => absurd hc.2 (not_lt.mpr h.le)), if_pos ⟨rfl, h⟩, abs_neg,
          abs_of_pos Real.pi_div_two_pos]
      · rw [if_pos ⟨rfl, h⟩, abs_of_pos Real.pi_div_two_pos]
    rw [habs]
    apply iff_of_false
    · rintro (h | h) <;> linarith
    · rw [abs_zero, mul_zero]
      exact not_lt.mpr (by positivity)
  · -- ray points left
    have hnx : 0 < -x := by linarith
    have hA0 : 0 ≤ Real.arctan (|y| / -x) := by
      have := Real.arctan_strictMono.monotone (div_nonneg (abs_nonneg y) hnx.le)
      rwa [Real.arctan_zero] at this
    have hApi : Real.arctan (|y| / -x) < Real.pi / 2 := Real.arctan_lt_pi_div_two _
    have habs : |atan2 y x| = Real.pi - Real.arctan (|y| / -x) := by
      rcases le_or_lt 0 y with hy | hy
      · have hval : atan2 y x = Real.arctan (y / x) + Real.pi := by
          unfold atan2
          rw [if_neg (by linarith : ¬ 0 < x), if_pos ⟨hx, hy⟩]
        have hyx : y / x = -(y / -x) := by rw [div_neg, neg_neg]
        rw [hval, hyx, Real.arctan_neg, abs_of_nonneg hy]
        have hBpi : Real.arctan (y / -x) < Real.pi / 2 := Real.arctan_lt_pi_div_two _
        have hB0 : 0 ≤ Real.arctan (y / -x) := by
          have := Real.arctan_strictMono.monotone (div_nonneg hy hnx.le)
          rwa [Real.arctan_zero] at this
        rw [abs_of_pos (by linarith [Real.pi_gt_three])]
        ring
      · have hval : atan2 y x = Real.arctan (y / x) - Real.pi := by
          unfold atan2
          rw [if_neg (by linarith : ¬ 0 < x), if_neg (fun hc => absurd hy (not_lt.mpr hc.2)),
            if_pos ⟨hx, hy⟩]
        have hyx : y / x = |y| / -x := by
          rw [abs_of_neg hy, neg_div_neg_eq]
        rw [hval, hyx, abs_of_neg (by linarith [Real.pi_gt_three] : Real.arctan (|y| / -x) - Real.pi < 0)]
        ring
    rw [habs, abs_of_neg hx]
    constructor
    · rintro (h | h)
      · exfalso
        linarith
      · have h2 : Real.arctan (|y| / -x) < Real.arctan (hgtH / hgtW) := by linarith
        have h3 := Real.arctan_strictMono.lt_iff_lt.mp h2
        rwa [div_lt_div_iff hnx hW] at h3
    · intro h
      right
      have h3 : |y| / -x < hgtH / hgtW := by
        rw [div_lt_div_iff hnx hW]
        exact h
      have := Real.arctan_strictMono h3
      linarith

/-- Any anchor value other than the four pinned sides falls through to the
auto computation; in particular the "auto" anchor and the absent anchor. -/
theorem getEdgePoint_auto (el : Element) (tX tY : ℝ) (anchor : Option String)
    (hanchor : anchor = none ∨ anchor = some "auto") :
    getEdgePoint el tX tY anchor = autoEdgePoint el tX tY := by
  rcases hanchor with h | h <;> subst h <;> rfl

/-- Claim C5: for every rectangular-shape node (variable, stock, flow)
with positive dimensions and every target distinct from the node center,
the auto edge point lies exactly on the bounding-box perimeter: both
coordinates stay within the half-dimensions and the coordinate of the
exit side attains it exactly. -/
theorem edge_point_containment (el : Element) (tX tY : ℝ) (anchor : Option String)
    (hshape : shapeOf el.type = Shape.text ∨ shapeOf el.type = Shape.rect ∨
              shapeOf el.type = Shape.valve)
    (hanchor : anchor = none ∨ anchor = some "auto")
    (hw : 0 < (dimsEdge el).1) (hh : 0 < (dimsEdge el).2)
    (hne : ¬(tX = el.x ∧ tY = el.y)) :
    |(getEdgePoint el tX tY anchor).1 - el.x| ≤ (dimsEdge el).1 / 2 ∧
    |(getEdgePoint el tX tY anchor).2 - el.y| ≤ (dimsEdge el).2 / 2 ∧
    (|(getEdgePoint el tX tY anchor).1 - el.x| = (dimsEdge el).1 / 2 ∨
     |(getEdgePoint el tX tY anchor).2 - el.y| = (dimsEdge el).2 / 2) := by
  rw [getEdgePoint_auto el tX tY anchor hanchor]
  have hsh : ¬(shapeOf el.type = Shape.loop ∨ shapeOf el.type = Shape.cloud ∨
      shapeOf el.type = Shape.circle) := by
    rcases hshape with h | h | h <;> rw [h] <;> simp
  set W := (dimsEdge el).1 / 2 with hWdef
  set H := (dimsEdge el).2 / 2 with hHdef
  have hW : 0 < W := by rw [hWdef]; linarith
  have hH : 0 < H := by rw [hHdef]; linarith
  set dx := tX - el.x with hdxdef
  set dy := tY - el.y with hdydef
  have hne2 : ¬(dx = 0 ∧ dy = 0) := by
    rintro ⟨h1, h2⟩
    exact hne ⟨by linarith [sub_eq_zero.mp h1], by linarith [sub_eq_zero.mp h2]⟩
  have hbr := atan2_branch_iff dy dx H W hW hH hne2
  unfold autoEdgePoint
  rw [if_neg hsh]
  simp only [← hWdef, ← hHdef, ← hdxdef, ← hdydef]
  by_cases hB : |atan2 dy dx| < atan2 H W ∨ Real.pi - atan2 H W < |atan2 dy dx|
  · rw [if_pos hB]
    have halg : |dy| * W < H * |dx| := hbr.mp hB
    have hdx : dx ≠ 0 := by
      intro h
      rw [h, abs_zero, mul_zero] at halg
      nlinarith [abs_nonneg dy]
    have htan : Real.tan (atan2 dy dx) = dy / dx := tan_atan2 dy dx hdx
    have hEabs : |if 0 < dx then W else -W| = W := by
      split_ifs <;> simp [abs_of_pos hW]
    have hEY : |(if 0 < dx then W else -W) * Real.tan (atan2 dy dx)| < H := by
      rw [htan, abs_mul, hEabs, abs_div, ← mul_div_assoc, div_lt_iff (abs_pos.mpr hdx)]
      linarith
    refine ⟨?_, ?_, ?_⟩
    · simp only [add_sub_cancel_left]
      exact le_of_eq hEabs
    · simp only [add_sub_cancel_left]
      exact le_of_lt hEY
    · left
      simp only [add_sub_cancel_left]
      exact hEabs
  · rw [if_neg hB]
    have halg : H * |dx| ≤ |dy| * W := not_lt.mp (fun h => hB (hbr.mpr h))
    have hdy : dy ≠ 0 := by
      intro h
      rw [h, abs_zero, zero_mul] at halg
      have : |dx| = 0 := by nlinarith [abs_nonneg dx]
      exact hne2 ⟨abs_eq_zero.mp this, h⟩
    have hFabs : |if 0 < dy then H else -H| = H := by
      split_ifs <;> simp [abs_of_pos hH]
    have hFX : |(if 0 < dy then H else -H) / Real.tan (atan2 dy dx)| ≤ W := by
      by_cases hdx : dx = 0
      · rw [hdx, tan_atan2_zero, div_zero, abs_zero]
        exact hW.le
      · rw [tan_atan2 dy dx hdx, div_div_eq_mul_div, abs_div, abs_mul, hFabs]
        rw [div_le_iff (abs_pos.mpr hdy)]
        linarith
    refine ⟨?_, ?_, ?_⟩
    · simp only [add_sub_cancel_left]
      exact hFX
    · simp only [add_sub_cancel_left]
      exact le_of_eq hFabs
    · right
      simp only [add_sub_cancel_left]
      exact hFabs

/-- A variable node at the origin for the C5 witness. -/
def elVar : Element :=
  { id := "V", type := "variable", x := 0, y := 0, width := none, height := none }

/-- Claim C5 witness: the auto edge point of the default variable node
toward the point (1, 0) stays on the bounding-box perimeter. -/
theorem edge_point_containment_witness :
    |(getEdgePoint elVar 1 0 (some "auto")).1 - elVar.x| ≤ (dimsEdge elVar).1 / 2 ∧
    |(getEdgePoint elVar 1 0 (some "auto")).2 - elVar.y| ≤ (dimsEdge elVar).2 / 2 ∧
    (|(getEdgePoint elVar 1 0 (some "auto")).1 - elVar.x| = (dimsEdge elVar).1 / 2 ∨
     |(getEdgePoint elVar 1 0 (some "auto")).2 - elVar.y| = (dimsEdge elVar).2 / 2) :=
  edge_point_containment elVar 1 0 (some "auto") (Or.inl rfl) (Or.inr rfl)
    (by rw [show dimsEdge elVar = ((80 : ℝ), (24 : ℝ)) from rfl]; norm_num)
    (by rw [show dimsEdge elVar = ((80 : ℝ), (24 : ℝ)) from rfl]; norm_num)
    (by rw [show elVar.x = (0 : ℝ) from rfl, show elVar.y = (0 : ℝ) from rfl]; norm_num)
